import Mathlib

/-!
# Cashflow ledger aggregator: shallow embedding and verification

This file embeds the ledger/aggregation core of the cashflow web app:

* `recalc_saldo` and the index/delete/edit routes from `src/routes/cashflow.py`;
* `get_user_totals`, the `/transactions` filter query, `add_transaction`,
  `edit_transaction` and `delete_transaction` from `src/app.py`.

Modelling conventions:

* Python `float` amounts are modelled as exact rationals (`ℚ`); the spec treats
  amounts as decimal quantities and all claims are about exact arithmetic.
* SQL rows for one user are modelled as a `List Txn`; the `WHERE user_id = ?`
  scoping is implicit (the list is the current user's rows).
* Lists handed to the running-balance pass are in ascending `date` order, the
  order produced by `Cashflow.query.order_by(Cashflow.date)`.
* Routes that can only ever succeed are still given an `Except` result type so
  that the presence/absence of error signalling is expressible.
-/

namespace Cashflow

/-- A stored transaction row (`models.py` `Cashflow` / `app.py` `transactions`
table): id, description, category (`"cash"` / `"non_cash"` in well-formed data,
but a free string in the code), transaction type (`"income"` /
`"expenditure"`), amount, creation timestamp (`date`, modelled as `Nat`). -/
structure Txn where
  id : Nat
  description : String
  category : String
  transaction : String
  amount : ℚ
  date : Nat
  deriving DecidableEq, Repr

/-- Form input for the add/edit routes: the four caller-supplied fields.
The storage layer assigns `id` and `date`. -/
structure TxnInput where
  description : String
  category : String
  transaction : String
  amount : ℚ
  deriving DecidableEq, Repr

/-- Error kinds named by the error-handling design of the spec
(validation errors and not-found). -/
inductive CashflowError where
  | validation (msg : String)
  | notFound
  deriving DecidableEq, Repr

/-- The dictionary returned by `get_user_totals` (`src/app.py` 135-148),
as a record. -/
structure Totals where
  total_transactions : Nat
  cash_count : Nat
  non_cash_count : Nat
  cash_income : ℚ
  cash_expense : ℚ
  cash_balance : ℚ
  non_cash_income : ℚ
  non_cash_expense : ℚ
  non_cash_balance : ℚ
  total_income : ℚ
  total_expense : ℚ
  total_balance : ℚ
  deriving DecidableEq, Repr

/-- Signed contribution of one row to its accumulator:
`r.amount if r.transaction == "income" else -r.amount`
(`recalc_saldo`, `src/routes/cashflow.py` lines 14 and 16). -/
def signedAmount (r : Txn) : ℚ :=
  if r.transaction = "income" then r.amount else -r.amount

/-- The loop of `recalc_saldo` (`src/routes/cashflow.py` 9-19): a single
forward pass holding the two accumulators, emitting each row together with the
`(saldo_cash, saldo_non_cash)` values written onto it.  Rows whose category is
exactly `"cash"` update the cash accumulator; every other row updates the
non-cash accumulator. -/
def recalcSaldoAux : ℚ → ℚ → List Txn → List (Txn × ℚ × ℚ)
  | _, _, [] => []
  | cash, nonCash, r :: rs =>
    if r.category = "cash" then
      (r, cash + signedAmount r, nonCash) ::
        recalcSaldoAux (cash + signedAmount r) nonCash rs
    else
      (r, cash, nonCash + signedAmount r) ::
        recalcSaldoAux cash (nonCash + signedAmount r) rs

/-- `recalc_saldo` on a date-ascending list: both accumulators start at 0. -/
def recalcSaldo (records : List Txn) : List (Txn × ℚ × ℚ) :=
  recalcSaldoAux 0 0 records

/-- Signed cumulative sum of the rows satisfying `p`: the reference value the
spec compares running balances against. -/
def signedSumBy (p : Txn → Bool) (l : List Txn) : ℚ :=
  ((l.filter p).map signedAmount).sum

/-- One `(category, transaction_type)` bucket sum of `get_user_totals`
(`src/app.py` 107-124): `SUM(CASE WHEN transaction_type = ty THEN amount
ELSE 0 END)` over the rows `WHERE category = cat`. -/
def bucketSum (cat ty : String) (l : List Txn) : ℚ :=
  ((l.filter fun r => r.category == cat && r.transaction == ty).map
    (fun r => r.amount)).sum

/-- `COUNT(*) ... WHERE category = cat` (`src/app.py` 127-131). -/
def catCount (cat : String) (l : List Txn) : Nat :=
  (l.filter fun r => r.category == cat).length

/-- `get_user_totals` (`src/app.py` 97-148): the four bucket sums, the three
counts, and the derived balances exactly as the returned dict computes them. -/
def getUserTotals (l : List Txn) : Totals :=
  let cashIn := bucketSum "cash" "income" l
  let cashEx := bucketSum "cash" "expenditure" l
  let nonIn := bucketSum "non_cash" "income" l
  let nonEx := bucketSum "non_cash" "expenditure" l
  { total_transactions := l.length
    cash_count := catCount "cash" l
    non_cash_count := catCount "non_cash" l
    cash_income := cashIn
    cash_expense := cashEx
    cash_balance := cashIn - cashEx
    non_cash_income := nonIn
    non_cash_expense := nonEx
    non_cash_balance := nonIn - nonEx
    total_income := cashIn + nonIn
    total_expense := cashEx + nonEx
    total_balance := (cashIn + nonIn) - (cashEx + nonEx) }

/-- What the index view displays as `(cash_total, non_cash_total)`
(`src/routes/cashflow.py` 41-44): the stored rows carry the annotations of the
last `recalc_saldo` pass (date-ascending); the view re-orders them by date
descending and reads `records[-1].saldo_cash` / `.saldo_non_cash`, with 0 for
an empty list. -/
def indexTotals (txns : List Txn) : ℚ × ℚ :=
  match (recalcSaldo txns).reverse.getLast? with
  | some (_, c, nc) => (c, nc)
  | none => (0, 0)

/-- Does the first list begin with the second one? -/
def hasLead : List Char → List Char → Bool
  | _, [] => true
  | [], _ :: _ => false
  | a :: as, b :: bs => a == b && hasLead as bs

/-- Does the first list contain the second as a contiguous run? -/
def hasSub : List Char → List Char → Bool
  | [], pat => hasLead [] pat
  | a :: t, pat => hasLead (a :: t) pat || hasSub t pat

/-- Model of `description LIKE '%search%'` (`src/app.py` 427): substring
containment.  (SQLite's LIKE is ASCII-case-insensitive; the model fixes
case-sensitive matching, which agrees on same-case data.) -/
def likeContains (description search : String) : Bool :=
  hasSub description.toList search.toList

/-- The `/transactions` filter query builder (`src/app.py` 409-432): the
category clause is added when `category != 'all'`, the type clause when
`type != 'all'`, and the LIKE clause when `search` is non-empty (Python
truthiness of the string). -/
def filterTransactions (l : List Txn) (cat ty search : String) : List Txn :=
  let l1 := if cat ≠ "all" then l.filter (fun r => r.category == cat) else l
  let l2 := if ty ≠ "all" then l1.filter (fun r => r.transaction == ty) else l1
  if search ≠ "" then l2.filter (fun r => likeContains r.description search) else l2

/-- The filter operation as the claim words it: each of the three filters is a
no-op exactly when given the wildcard `"all"` sentinel, and the provided
predicates are applied in conjunction. -/
def specFilterAllSentinel (l : List Txn) (cat ty search : String) : List Txn :=
  l.filter (fun r =>
    (cat == "all" || r.category == cat) &&
    (ty == "all" || r.transaction == ty) &&
    (search == "all" || likeContains r.description search))

/-- Row built by an INSERT: storage assigns `id` and `date`, the form supplies
the other four fields. -/
def mkTxn (newId : Nat) (inp : TxnInput) (newDate : Nat) : Txn :=
  { id := newId
    description := inp.description
    category := inp.category
    transaction := inp.transaction
    amount := inp.amount
    date := newDate }

/-- `add_transaction` (`src/app.py` 458-477): reads the form fields and INSERTs
unconditionally — there is no validation branch, so the result is always
`Except.ok` of the collection with the new row appended. -/
def addTransaction (l : List Txn) (inp : TxnInput) (newId newDate : Nat) :
    Except CashflowError (List Txn) :=
  Except.ok (l ++ [mkTxn newId inp newDate])

/-- `delete_transaction` (`src/app.py` 523-535): `DELETE ... WHERE id = tid`,
then flash success — always `Except.ok`, keeping the non-matching rows. -/
def deleteTransaction (l : List Txn) (tid : Nat) : Except CashflowError (List Txn) :=
  Except.ok (l.filter fun r => !(r.id == tid))

/-- The SET clause of the edit UPDATE (`src/app.py` 512-515): overwrite
description, category, transaction type and amount, keep everything else. -/
def applyEditRow (r : Txn) (inp : TxnInput) : Txn :=
  { r with
    description := inp.description
    category := inp.category
    transaction := inp.transaction
    amount := inp.amount }

/-- `UPDATE transactions SET ... WHERE id = tid` over the whole collection. -/
def editRows (l : List Txn) (tid : Nat) (inp : TxnInput) : List Txn :=
  l.map fun r => if r.id == tid then applyEditRow r inp else r

/-- `edit_transaction` POST (`src/app.py` 506-521): runs the UPDATE and
flashes success — always `Except.ok`, whether or not any row matched. -/
def editTransaction (l : List Txn) (tid : Nat) (inp : TxnInput) :
    Except CashflowError (List Txn) :=
  Except.ok (editRows l tid inp)

/-! ## Sample data used by witnesses and counterexamples -/

/-- A cash income row. -/
def sampleCash : Txn := ⟨1, "gaji", "cash", "income", 7, 1⟩

/-- A non-cash expenditure row, dated after `sampleCash`. -/
def sampleNon : Txn := ⟨2, "belanja", "non_cash", "expenditure", 3, 2⟩

/-- A two-row store in ascending date order. -/
def sampleStore : List Txn := [sampleCash, sampleNon]

/-! ## Helper lemmas -/

/-- The `recalc_saldo` pass emits one output row per input row. -/
theorem recalcSaldoAux_length (cash nonCash : ℚ) (l : List Txn) :
    (recalcSaldoAux cash nonCash l).length = l.length := by
  induction l generalizing cash nonCash with
  | nil => rfl
  | cons r rs ih =>
    by_cases h : r.category = "cash" <;> simp [recalcSaldoAux, h, ih]

/-- Splitting a signed cumulative sum at its head element. -/
theorem signedSumBy_cons (p : Txn → Bool) (r : Txn) (l : List Txn) :
    signedSumBy p (r :: l) =
      (if p r then signedAmount r else 0) + signedSumBy p l := by
  by_cases h : p r <;> simp [signedSumBy, List.filter_cons, h]

/-- Characterization of the `recalc_saldo` loop: the row at position `i` of the
output is the row at position `i` of the input, and its two annotations are the
starting accumulators plus the signed sums, over the input's first `i + 1`
rows, of the rows with category `"cash"` (resp. any other category). -/
theorem recalcSaldoAux_getElem (l : List Txn) :
    ∀ (cash nonCash : ℚ) (i : Nat) (t : Txn) (c nc : ℚ),
      (recalcSaldoAux cash nonCash l)[i]? = some (t, c, nc) →
      l[i]? = some t ∧
      c = cash + signedSumBy (fun r => r.category == "cash") (l.take (i + 1)) ∧
      nc = nonCash + signedSumBy (fun r => !(r.category == "cash")) (l.take (i + 1)) := by
  induction l with
  | nil =>
    intro cash nonCash i t c nc h
    simp [recalcSaldoAux] at h
  | cons r rs ih =>
    intro cash nonCash i t c nc h
    by_cases hc : r.category = "cash"
    · rw [recalcSaldoAux, if_pos hc] at h
      cases i with
      | zero =>
        rw [List.getElem?_cons_zero, Option.some_inj, Prod.mk.injEq, Prod.mk.injEq] at h
        obtain ⟨ht, hcv, hnc⟩ := h
        refine ⟨by rw [List.getElem?_cons_zero, ht], ?_, ?_⟩
        · rw [← hcv]
          simp [signedSumBy_cons, hc, signedSumBy]
        · rw [← hnc]
          simp [signedSumBy_cons, hc, signedSumBy]
      | succ j =>
        rw [List.getElem?_cons_succ] at h
        obtain ⟨ht, hcv, hnc⟩ := ih (cash + signedAmount r) nonCash j t c nc h
        refine ⟨by rw [List.getElem?_cons_succ, ht], ?_, ?_⟩
        · rw [hcv, List.take_succ_cons, signedSumBy_cons]
          simp [hc]
          ring
        · rw [hnc, List.take_succ_cons, signedSumBy_cons]
          simp [hc]
    · rw [recalcSaldoAux, if_neg hc] at h
      cases i with
      | zero =>
        rw [List.getElem?_cons_zero, Option.some_inj, Prod.mk.injEq, Prod.mk.injEq] at h
        obtain ⟨ht, hcv, hnc⟩ := h
        refine ⟨by rw [List.getElem?_cons_zero, ht], ?_, ?_⟩
        · rw [← hcv]
          simp [signedSumBy_cons, hc, signedSumBy]
        · rw [← hnc]
          simp [signedSumBy_cons, hc, signedSumBy]
      | succ j =>
        rw [List.getElem?_cons_succ] at h
        obtain ⟨ht, hcv, hnc⟩ := ih cash (nonCash + signedAmount r) j t c nc h
        refine ⟨by rw [List.getElem?_cons_succ, ht], ?_, ?_⟩
        · rw [hcv, List.take_succ_cons, signedSumBy_cons]
          simp [hc]
        · rw [hnc, List.take_succ_cons, signedSumBy_cons]
          simp [hc]
          ring

/-! ## Claim theorems -/

/-- Claim C1: for every list of transactions sorted ascending by timestamp
whose categories lie in the documented enumeration `{cash, non_cash}`, the
running-balance annotations `recalc_saldo` writes onto each row
(`saldo_cash`, `saldo_non_cash`) equal the signed cumulative sums of that
category's transactions up to and including that row, where `income`
contributes `+amount` and `expenditure` contributes `-amount`. -/
theorem recalc_saldo_running_balance (txns : List Txn)
    (_hsorted : txns.Pairwise (fun a b => a.date ≤ b.date))
    (hcat : ∀ r ∈ txns, r.category = "cash" ∨ r.category = "non_cash") :
    ∀ (i : Nat) (t : Txn) (c nc : ℚ),
      (recalcSaldo txns)[i]? = some (t, c, nc) →
      txns[i]? = some t ∧
      c = signedSumBy (fun r => r.category == "cash") (txns.take (i + 1)) ∧
      nc = signedSumBy (fun r => r.category == "non_cash") (txns.take (i + 1)) := by
  intro i t c nc h
  obtain ⟨ht, hcv, hnc⟩ := recalcSaldoAux_getElem txns 0 0 i t c nc h
  refine ⟨ht, by rw [hcv, zero_add], ?_⟩
  rw [hnc, zero_add]
  unfold signedSumBy
  have hfe : List.filter (fun r => !(r.category == "cash")) (txns.take (i + 1)) =
      List.filter (fun r => r.category == "non_cash") (txns.take (i + 1)) := by
    apply List.filter_congr
    intro r hr
    rcases hcat r (List.take_subset (i + 1) txns hr) with h1 | h1 <;> simp [h1]
  rw [hfe]

/-- Witness for C1 at `sampleStore`, row index 1. -/
theorem recalc_saldo_running_balance_witness :
    sampleStore[1]? = some sampleNon ∧
    (7 : ℚ) = signedSumBy (fun r => r.category == "cash") (sampleStore.take 2) ∧
    (-3 : ℚ) = signedSumBy (fun r => r.category == "non_cash") (sampleStore.take 2) :=
  recalc_saldo_running_balance sampleStore
    (by simp [sampleStore, sampleCash, sampleNon])
    (by simp [sampleStore, sampleCash, sampleNon])
    1 sampleNon 7 (-3)
    (by
      have h : recalcSaldo sampleStore = [(sampleCash, 7, 0), (sampleNon, 7, -3)] := by
        simp [recalcSaldo, recalcSaldoAux, signedAmount, sampleStore, sampleCash, sampleNon]
      rw [h]
      rfl)

/-- Claim C10: in `recalc_saldo`, every row whose category is not exactly the
string `"cash"` — `"non_cash"`, but also any unrecognized or empty category —
is applied to the non-cash accumulator, and no row is rejected or skipped: the
output has one row per input row, in order, and each non-cash annotation is the
signed cumulative sum of exactly the rows whose category differs from
`"cash"`. -/
theorem recalc_saldo_non_cash_catchall (txns : List Txn) :
    (recalcSaldo txns).length = txns.length ∧
    ∀ (i : Nat) (t : Txn) (c nc : ℚ),
      (recalcSaldo txns)[i]? = some (t, c, nc) →
      txns[i]? = some t ∧
      nc = signedSumBy (fun r => !(r.category == "cash")) (txns.take (i + 1)) := by
  refine ⟨recalcSaldoAux_length 0 0 txns, ?_⟩
  intro i t c nc h
  obtain ⟨ht, _, hnc⟩ := recalcSaldoAux_getElem txns 0 0 i t c nc h
  exact ⟨ht, by rw [hnc, zero_add]⟩

/-- Witness for C10 at a one-row store whose category `"e-wallet"` is outside
the enumeration: the row lands on the non-cash accumulator. -/
theorem recalc_saldo_non_cash_catchall_witness :
    ([⟨3, "topup", "e-wallet", "income", 4, 1⟩] : List Txn)[0]? =
      some ⟨3, "topup", "e-wallet", "income", 4, 1⟩ ∧
    (4 : ℚ) = signedSumBy (fun r => !(r.category == "cash"))
      (([⟨3, "topup", "e-wallet", "income", 4, 1⟩] : List Txn).take 1) :=
  (recalc_saldo_non_cash_catchall [⟨3, "topup", "e-wallet", "income", 4, 1⟩]).2
    0 ⟨3, "topup", "e-wallet", "income", 4, 1⟩ 0 4
    (by
      have h : recalcSaldo [⟨3, "topup", "e-wallet", "income", 4, 1⟩] =
          [(⟨3, "topup", "e-wallet", "income", 4, 1⟩, 0, 4)] := by
        simp [recalcSaldo, recalcSaldoAux, signedAmount]
      rw [h]
      rfl)

/-- Claim C2: for every sequence of transactions, the totals of
`get_user_totals` satisfy `total_balance = cash_balance + non_cash_balance`,
`total_balance = total_income - total_expense`, and the four defining
derivations of the per-bucket balances and combined sums. -/
theorem totals_balance_identities (l : List Txn) :
    (getUserTotals l).total_balance =
      (getUserTotals l).cash_balance + (getUserTotals l).non_cash_balance ∧
    (getUserTotals l).total_balance =
      (getUserTotals l).total_income - (getUserTotals l).total_expense ∧
    (getUserTotals l).cash_balance =
      (getUserTotals l).cash_income - (getUserTotals l).cash_expense ∧
    (getUserTotals l).non_cash_balance =
      (getUserTotals l).non_cash_income - (getUserTotals l).non_cash_expense ∧
    (getUserTotals l).total_income =
      (getUserTotals l).cash_income + (getUserTotals l).non_cash_income ∧
    (getUserTotals l).total_expense =
      (getUserTotals l).cash_expense + (getUserTotals l).non_cash_expense := by
  refine ⟨?_, ?_, ?_, ?_, ?_, ?_⟩ <;> (simp only [getUserTotals]; try ring)

/-- Claim C6: `get_user_totals` on the empty collection returns a record with
every field equal to zero; being a total function it neither fails nor
divides. -/
theorem totals_empty_all_zero :
    (getUserTotals []).total_transactions = 0 ∧
    (getUserTotals []).cash_count = 0 ∧
    (getUserTotals []).non_cash_count = 0 ∧
    (getUserTotals []).cash_income = 0 ∧
    (getUserTotals []).cash_expense = 0 ∧
    (getUserTotals []).cash_balance = 0 ∧
    (getUserTotals []).non_cash_income = 0 ∧
    (getUserTotals []).non_cash_expense = 0 ∧
    (getUserTotals []).non_cash_balance = 0 ∧
    (getUserTotals []).total_income = 0 ∧
    (getUserTotals []).total_expense = 0 ∧
    (getUserTotals []).total_balance = 0 := by
  simp [getUserTotals, bucketSum, catCount]

/-- Two cash income rows in ascending date order: after them the final cash
balance is 15, but the first row's stored annotation is 10. -/
def bugStore : List Txn :=
  [⟨1, "a", "cash", "income", 10, 1⟩, ⟨2, "b", "cash", "income", 5, 2⟩]

/-- Claim C3 (code bug, evaluated at the failing input `bugStore`): the
running-balance pass does emit one row per input row, and the chronologically
last row's annotations `(15, 0)` do equal `get_user_totals`'s
`cash_balance`/`non_cash_balance` — but the index view displays `(10, 0)`,
the running balance after the chronologically *first* transaction, because it
reads `records[-1]` of a date-*descending* list (`src/routes/cashflow.py`
41-44). -/
theorem index_total_shows_first_row :
    (recalcSaldo bugStore).length = bugStore.length ∧
    (recalcSaldo bugStore).getLast? =
      some (⟨2, "b", "cash", "income", 5, 2⟩, 15, 0) ∧
    (getUserTotals bugStore).cash_balance = 15 ∧
    (getUserTotals bugStore).non_cash_balance = 0 ∧
    indexTotals bugStore = (10, 0) ∧
    indexTotals bugStore ≠
      ((getUserTotals bugStore).cash_balance, (getUserTotals bugStore).non_cash_balance) := by
  have hr : recalcSaldo bugStore =
      [(⟨1, "a", "cash", "income", 10, 1⟩, 10, 0),
       (⟨2, "b", "cash", "income", 5, 2⟩, 15, 0)] := by
    simp [recalcSaldo, recalcSaldoAux, signedAmount, bugStore]
    norm_num
  have hc : (getUserTotals bugStore).cash_balance = 15 := by
    simp [getUserTotals, bucketSum, bugStore]
    norm_num
  have hn : (getUserTotals bugStore).non_cash_balance = 0 := by
    simp [getUserTotals, bucketSum, bugStore]
  have hi : indexTotals bugStore = (10, 0) := by
    rw [indexTotals, hr]
    rfl
  refine ⟨by rw [hr, bugStore]; rfl, by rw [hr]; rfl, hc, hn, hi, ?_⟩
  rw [hi, hc, hn]
  intro hcontra
  have := congrArg Prod.fst hcontra
  norm_num at this

/-- A form input with a non-positive amount. -/
def badInput : TxnInput := ⟨"minus", "cash", "income", -2⟩

/-- Claim C4 is false on the code: `add_transaction` performs no validation,
so an add whose amount is `-2 ≤ 0` is not rejected — it returns success with
the row appended, and the computed totals change. -/
theorem add_nonpositive_not_rejected :
    badInput.amount ≤ 0 ∧
    addTransaction [] badInput 1 1 = Except.ok [mkTxn 1 badInput 1] ∧
    getUserTotals [mkTxn 1 badInput 1] ≠ getUserTotals [] := by
  refine ⟨by norm_num [badInput], rfl, ?_⟩
  intro h
  have := congrArg Totals.total_transactions h
  simp [getUserTotals] at this

/-- Claim C4 amended: an add whose amount is non-positive is *not* rejected —
`add_transaction` inserts the row unconditionally, the stored collection gains
exactly that row at its end, and the recomputed totals count one more
transaction. -/
theorem add_nonpositive_inserted (l : List Txn) (inp : TxnInput)
    (newId newDate : Nat) (_h : inp.amount ≤ 0) :
    addTransaction l inp newId newDate = Except.ok (l ++ [mkTxn newId inp newDate]) ∧
    (getUserTotals (l ++ [mkTxn newId inp newDate])).total_transactions =
      (getUserTotals l).total_transactions + 1 := by
  refine ⟨rfl, ?_⟩
  simp [getUserTotals]

/-- Witness for the amended C4 at the empty store and `badInput`. -/
theorem add_nonpositive_inserted_witness :
    addTransaction [] badInput 1 1 = Except.ok ([] ++ [mkTxn 1 badInput 1]) ∧
    (getUserTotals ([] ++ [mkTxn 1 badInput 1])).total_transactions =
      (getUserTotals []).total_transactions + 1 :=
  add_nonpositive_inserted [] badInput 1 1 (by norm_num [badInput])

/-- Claim C5: for every sequence of transactions whose categories lie in the
documented enumeration `{cash, non_cash}`, `get_user_totals` satisfies
`total_transactions = cash_count + non_cash_count`, where
`total_transactions` counts all rows, `cash_count` the rows with category
`"cash"` and `non_cash_count` the rows with category `"non_cash"`. -/
theorem totals_count_partition (l : List Txn)
    (hcat : ∀ r ∈ l, r.category = "cash" ∨ r.category = "non_cash") :
    (getUserTotals l).total_transactions =
      (getUserTotals l).cash_count + (getUserTotals l).non_cash_count := by
  show l.length = catCount "cash" l + catCount "non_cash" l
  induction l with
  | nil => rfl
  | cons r rs ih =>
    have hr := hcat r (List.mem_cons_self r rs)
    have ih' := ih fun x hx => hcat x (List.mem_cons_of_mem r hx)
    rcases hr with h1 | h1 <;>
      simp [catCount, List.filter_cons, h1] at ih' ⊢ <;> omega

/-- Witness for C5 at `sampleStore`. -/
theorem totals_count_partition_witness :
    (getUserTotals sampleStore).total_transactions =
      (getUserTotals sampleStore).cash_count + (getUserTotals sampleStore).non_cash_count :=
  totals_count_partition sampleStore (by simp [sampleStore, sampleCash, sampleNon])

/-- A row whose description does not contain the letters `all`. -/
def searchAllTxn : Txn := ⟨9, "gaji", "cash", "income", 5, 1⟩

/-- Claim C7 is false on the code: the search filter's sentinel is the empty
string, not `"all"`.  With `search = "all"` the claim's reading (every `"all"`
filter is a no-op) keeps the row, but the code filters on descriptions
containing `"all"` and drops it. -/
theorem filter_search_all_not_wildcard :
    filterTransactions [searchAllTxn] "all" "all" "all" = [] ∧
    specFilterAllSentinel [searchAllTxn] "all" "all" "all" = [searchAllTxn] := by
  constructor <;> rfl

/-- Claim C7 amended: the category and type filters treat `"all"` as the
wildcard sentinel, while the search filter is a no-op exactly when the search
string is empty; the result is exactly the rows satisfying the conjunction
(AND) of the provided predicates, the search predicate being substring
containment.  In particular `category = "cash"` keeps exactly the rows whose
category equals `"cash"`. -/
theorem filter_conjunction (l : List Txn) (cat ty search : String) :
    filterTransactions l cat ty search =
      l.filter (fun r =>
        (cat == "all" || r.category == cat) &&
        (ty == "all" || r.transaction == ty) &&
        (search == "" || likeContains r.description search)) := by
  by_cases hc : cat = "all" <;> by_cases ht : ty = "all" <;> by_cases hs : search = "" <;>
    simp [filterTransactions, hc, ht, hs, List.filter_filter] <;>
    (apply List.filter_congr; intro r hr;
     cases h1 : r.category == cat <;> cases h2 : r.transaction == ty <;>
       cases h3 : likeContains r.description search <;> simp [h1, h2, h3] <;>
       tauto)

/-- A full-field edit form input. -/
def editInput : TxnInput := ⟨"upd", "non_cash", "expenditure", 6⟩

/-- Claim C8 is false on the code: deleting and editing an id absent from the
store (here id 99 against a store containing only id 1) does not signal a
`NotFoundError` — both routes complete successfully, leaving the store as it
was. -/
theorem missing_id_no_notfound :
    deleteTransaction [sampleCash] 99 = Except.ok [sampleCash] ∧
    editTransaction [sampleCash] 99 ⟨"upd2", "cash", "income", 8⟩ =
      Except.ok [sampleCash] := by
  constructor <;> rfl

/-- Claim C8 amended: for every stored collection and every transaction id not
present in it, the delete and edit operations succeed silently (no error of
any kind is signaled) and the stored collection is unchanged. -/
theorem missing_id_silent_success (l : List Txn) (tid : Nat) (inp : TxnInput)
    (h : ∀ r ∈ l, r.id ≠ tid) :
    deleteTransaction l tid = Except.ok l ∧
    editTransaction l tid inp = Except.ok l := by
  constructor
  · unfold deleteTransaction
    congr 1
    apply List.filter_eq_self.mpr
    intro r hr
    simpa using h r hr
  · unfold editTransaction editRows
    congr 1
    have hmap : ∀ r ∈ l, (if r.id == tid then applyEditRow r inp else r) = r := by
      intro r hr
      have hb : (r.id == tid) = false := by simpa using h r hr
      simp [hb]
    rw [List.map_congr_left hmap]
    simp

/-- Witness for the amended C8: a store holding only id 1, operated on with
the absent id 42. -/
theorem missing_id_silent_success_witness :
    deleteTransaction [sampleCash] 42 = Except.ok [sampleCash] ∧
    editTransaction [sampleCash] 42 editInput = Except.ok [sampleCash] :=
  missing_id_silent_success [sampleCash] 42 editInput (by simp [sampleCash])

/-- Claim C9: a full-field update (`edit_transaction` POST) changes only the
description, category, transaction type and amount of the rows whose id
matches; the matched row keeps its id and original timestamp, every
non-matching row is unchanged, and no row is added or removed. -/
theorem edit_updates_only_fields (l : List Txn) (tid : Nat) (inp : TxnInput) :
    (editRows l tid inp).length = l.length ∧
    ∀ (i : Nat) (r r' : Txn), l[i]? = some r →
      (editRows l tid inp)[i]? = some r' →
      r'.id = r.id ∧ r'.date = r.date ∧
      (r.id = tid → r'.description = inp.description ∧ r'.category = inp.category ∧
        r'.transaction = inp.transaction ∧ r'.amount = inp.amount) ∧
      (r.id ≠ tid → r' = r) := by
  constructor
  · simp [editRows]
  · intro i r r' hr hr'
    rw [editRows, List.getElem?_map, hr] at hr'
    simp only [Option.map_some', Option.some_inj] at hr'
    by_cases hid : r.id = tid
    · have hb : (r.id == tid) = true := by simpa using hid
      rw [hb] at hr'
      simp only [if_true] at hr'
      subst hr'
      exact ⟨rfl, rfl, fun _ => ⟨rfl, rfl, rfl, rfl⟩, fun hne => absurd hid hne⟩
    · have hb : (r.id == tid) = false := by simpa using hid
      rw [hb] at hr'
      simp only [Bool.false_eq_true, if_false] at hr'
      subst hr'
      exact ⟨rfl, rfl, fun hcontra => absurd hcontra hid, fun _ => rfl⟩

/-- The row edited in the C9 witness. -/
def frameTxn : Txn := ⟨1, "old", "cash", "income", 7, 5⟩

/-- The C9 witness's full-field update input. -/
def frameInput : TxnInput := ⟨"new", "non_cash", "expenditure", 2⟩

/-- The row after the C9 witness's update: new four fields, same id and
timestamp. -/
def frameResult : Txn := ⟨1, "new", "non_cash", "expenditure", 2, 5⟩

/-- Witness for C9: editing the single row with id 1 yields `frameResult`. -/
theorem edit_updates_only_fields_witness :
    frameResult.id = frameTxn.id ∧ frameResult.date = frameTxn.date ∧
    (frameTxn.id = 1 → frameResult.description = frameInput.description ∧
      frameResult.category = frameInput.category ∧
      frameResult.transaction = frameInput.transaction ∧
      frameResult.amount = frameInput.amount) ∧
    (frameTxn.id ≠ 1 → frameResult = frameTxn) :=
  (edit_updates_only_fields [frameTxn] 1 frameInput).2 0 frameTxn frameResult rfl rfl

end Cashflow
